import Mathlib

/-!
Shallow embedding of the mydb read/write-splitting database router
(src/mydb.go and its error-string constants file) and proofs of the
frozen claims about it.

Modelling conventions:
* Underlying sql.DB handles are opaque values of a type parameter; the
  outcome of each driver call (query, prepare, ping, close, ...) on a
  given replica is supplied as an explicit behaviour function, so a
  replica that is down is one whose behaviour function returns an error.
* Go's int (64-bit platform) is modelled as Int together with explicit
  two's-complement wraparound; Go's % on int is truncated modulus,
  which is Int.tmod.
* Fallible Go calls returning (T, error) are modelled as Except String T;
  calls returning only error are modelled as Option String (none = nil).
* Goroutine nondeterminism in the ping fan-in is modelled by an explicit
  collection order, a permutation of the replica ordinals.
-/

namespace Mydb

/-! Error message constants (errors file of the package). -/

def noReadReplicaError : String := "Provide at least one read replica"

/-- Format string replicaPingFailError applied to the 1-based ordinal and cause. -/
def replicaPingFailError (ordinal : Nat) (cause : String) : String :=
  "replica db " ++ toString ordinal ++ " ping fail: " ++ cause

/-- Format string masterPingFailError applied to the cause. -/
def masterPingFailError (cause : String) : String :=
  "master's db ping fail: " ++ cause

def pingChannelCloseError : String := "Ping Channel is closed"

def noReplicaAvailableError : String := "No replica is alive for reading data"

/-- Two's-complement wraparound into [-2^63, 2^63), the behaviour of Go's
int (64-bit platform) under increment/overflow. -/
def int64wrap (x : Int) : Int := (x + 2 ^ 63) % 2 ^ 64 - 2 ^ 63

/-- The DB struct: round-robin counter, master handle and the fixed
replica handle sequence. The mutex only serialises access to count and
has no pure-functional content. -/
structure DB (α : Type) where
  count : Int
  master : α
  readreplicas : List α
deriving DecidableEq

/-- New (mydb.go): fails when no replica is supplied, otherwise builds the
handle with the counter at its zero value. The master handle is not
inspected. -/
def New {α : Type} (master : α) (readreplicas : List α) : Except String (DB α) :=
  if readreplicas.length = 0 then
    Except.error noReadReplicaError
  else
    Except.ok { count := 0, master := master, readreplicas := readreplicas }

/-- readReplicaNumberRoundRobin (mydb.go): increments the counter (with
64-bit wraparound, Go int semantics) and returns count % len(readreplicas)
using Go's truncated modulus. -/
def DB.readReplicaNumberRoundRobin {α : Type} (db : DB α) : Int × DB α :=
  let count := int64wrap (db.count + 1)
  (count.tmod (db.readreplicas.length : Int), { db with count := count })

/-- The failover loop shared verbatim by QueryContext (mydb.go lines
143-152) and prepare (lines 253-262): the loop variable i starts at
replicaIndex + 1 and increments; the iteration at index i tries replica
i % n unless i % n has come back around to replicaIndex, in which case
the walk stops with noReplicaAvailableError. The fuel argument only
bounds the recursion; with fuel = n and replicaIndex < n the exit
condition fires strictly before fuel can run out (the characterisation
theorems below go through the exit condition, never the fuel bound). -/
def replicaWalkLoop {ρ : Type} (attempt : Nat → Except String ρ) (n replicaIndex : Nat) :
    Nat → Nat → Except String ρ
  | _, 0 => Except.error noReplicaAvailableError
  | i, fuel + 1 =>
    if i % n = replicaIndex then Except.error noReplicaAvailableError
    else
      match attempt (i % n) with
      | Except.ok r => Except.ok r
      | Except.error _ => replicaWalkLoop attempt n replicaIndex (i + 1) fuel

/-- QueryContext (mydb.go): pick a replica by round robin, try it, and on
failure walk the remaining replicas. replicaQuery i is the outcome of
readreplicas[i].QueryContext. -/
def DB.QueryContext {α ρ : Type} (db : DB α) (replicaQuery : Nat → Except String ρ) :
    Except String ρ × DB α :=
  let (replicaIndexInt, db') := db.readReplicaNumberRoundRobin
  let replicaIndex := replicaIndexInt.toNat
  let result :=
    match replicaQuery replicaIndex with
    | Except.ok rows => Except.ok rows
    | Except.error _ =>
        replicaWalkLoop replicaQuery db'.readreplicas.length replicaIndex (replicaIndex + 1)
          db'.readreplicas.length
  (result, db')

/-- prepare (mydb.go): identical walk to QueryContext with PrepareContext
as the attempted operation. replicaPrepare i is the outcome of
readreplicas[i].PrepareContext. -/
def DB.prepare {α σ : Type} (db : DB α) (replicaPrepare : Nat → Except String σ) :
    Except String σ × DB α :=
  let (replicaIndexInt, db') := db.readReplicaNumberRoundRobin
  let replicaIndex := replicaIndexInt.toNat
  let result :=
    match replicaPrepare replicaIndex with
    | Except.ok stmt => Except.ok stmt
    | Except.error _ =>
        replicaWalkLoop replicaPrepare db'.readreplicas.length replicaIndex (replicaIndex + 1)
          db'.readreplicas.length
  (result, db')

/-- Whitespace recognised by strings.TrimSpace, restricted to the ASCII
space characters (space, tab, newline, vertical tab, form feed, carriage
return); Go additionally trims a handful of Unicode spaces that never
occur in the claims. Query text is modelled as its rune sequence
(List Char) so that these functions compute in the kernel. -/
def isSpace (c : Char) : Bool :=
  c = ' ' || c = Char.ofNat 9 || c = Char.ofNat 10 || c = Char.ofNat 11 ||
    c = Char.ofNat 12 || c = Char.ofNat 13

/-- strings.TrimSpace on the rune sequence: drop spaces from both ends. -/
def trimSpace (s : List Char) : List Char :=
  ((s.dropWhile isSpace).reverse.dropWhile isSpace).reverse

/-- strings.ToLower on the rune sequence; Char.toLower lower-cases the
ASCII letters, which is all Go's rune-wise ToLower does on the letters
relevant to the select keyword. -/
def toLower (s : List Char) : List Char := s.map Char.toLower

/-- strings.HasPrefix on rune sequences. -/
def beginsWith : List Char → List Char → Bool
  | _, [] => true
  | [], _ :: _ => false
  | c :: s, p :: ps => c = p && beginsWith s ps

/-- PrepareContext (mydb.go): lower-case the whitespace-trimmed query; a
query not starting with the select keyword goes straight to the master
handle (masterPrepare is the outcome of master.PrepareContext), the rest
go through the replica walk. -/
def DB.PrepareContext {α σ : Type} (db : DB α) (masterPrepare : Except String σ)
    (replicaPrepare : Nat → Except String σ) (query : List Char) : Except String σ × DB α :=
  let qSmall := toLower (trimSpace query)
  if !(beginsWith qSmall "select".data) then (masterPrepare, db)
  else db.prepare replicaPrepare

/-- QueryRowContext (mydb.go): a single direct call on the replica chosen
by round robin; the driver-level QueryRowContext never fails
synchronously, so the behaviour function is total. -/
def DB.QueryRowContext {α ρ : Type} (db : DB α) (replicaQueryRow : Nat → ρ) : ρ × DB α :=
  let (replicaIndexInt, db') := db.readReplicaNumberRoundRobin
  (replicaQueryRow replicaIndexInt.toNat, db')

/-- ping (mydb.go): the per-replica goroutine body; formats a failure with
the 1-based ordinal, sends nil on success. replicaPing i is the outcome
of readreplicas[i].PingContext. -/
def ping (replicaPing : Nat → Option String) (i : Nat) : Option String :=
  match replicaPing i with
  | some err => some (replicaPingFailError (i + 1) err)
  | none => none

/-- PingContext (mydb.go): ping the master synchronously, fan out one ping
per replica, collect one completion per replica from the shared channel
and append each failure in collection order, then join the failure lines
with a newline. order is the race-determined order in which completions
are collected, a permutation of the replica ordinals; the
channel-closed branch is unreachable (the channel is closed only after
the collection loop, by defer) and so has no model counterpart. The
master failure lines prepended to errString before the collection loop
are split out as masterLines. -/
def masterLines (masterPing : Option String) : List String :=
  match masterPing with
  | some err => [masterPingFailError err]
  | none => []

def DB.PingContext {α : Type} (db : DB α) (masterPing : Option String)
    (replicaPing : Nat → Option String) (order : List Nat) : Option String × DB α :=
  let errString := masterLines masterPing ++ order.filterMap (fun i => ping replicaPing i)
  (if errString.length > 0 then some (String.intercalate "\n" errString) else none, db)

/-- A handle instrumented for the Close model: what its Close returns and
how many times Close has been called on it. -/
structure Handle where
  closeErr : Option String
  closeCalls : Nat
deriving DecidableEq

/-- Calling Close on a handle: returns its configured outcome and records
the call. -/
def Handle.close (h : Handle) : Option String × Handle :=
  (h.closeErr, { h with closeCalls := h.closeCalls + 1 })

/-- Close (mydb.go): err := master.Close(); then for each replica in order
err = replica.Close(); return err. Every close is attempted and the
variable holding the returned error is overwritten by every replica
close, successful or not. -/
def DB.Close {α : Type} (db : DB α) (closeFn : α → Option String × α) :
    Option String × DB α :=
  let (err, master') := closeFn db.master
  let (errFinal, replicas') :=
    db.readreplicas.foldl
      (fun acc h =>
        let (e, h') := closeFn h
        (e, acc.2 ++ [h']))
      (err, ([] : List α))
  (errFinal, { db with master := master', readreplicas := replicas' })

/-- ExecContext (mydb.go): pure delegation to the master handle; masterExec
is the outcome of master.ExecContext. -/
def DB.ExecContext {α ρ : Type} (db : DB α) (masterExec : Except String ρ) :
    Except String ρ × DB α :=
  (masterExec, db)

/-- BeginTx (mydb.go): pure delegation to the master handle. -/
def DB.BeginTx {α τ : Type} (db : DB α) (masterBeginTx : Except String τ) :
    Except String τ × DB α :=
  (masterBeginTx, db)

/-- SetConnMaxLifetime (mydb.go): applies the tuning call to the master and
then to every replica; setFn is the handle-level effect of the call. -/
def DB.SetConnMaxLifetime {α : Type} (db : DB α) (setFn : α → α) : DB α :=
  { db with master := setFn db.master, readreplicas := db.readreplicas.map setFn }

/-- SetMaxIdleConns (mydb.go): same shape as SetConnMaxLifetime. -/
def DB.SetMaxIdleConns {α : Type} (db : DB α) (setFn : α → α) : DB α :=
  { db with master := setFn db.master, readreplicas := db.readreplicas.map setFn }

/-- k iterated read calls: each read operation advances the router state
exactly by one readReplicaNumberRoundRobin step (proved below), so the
state after k read calls is k selector steps from the start. -/
def DB.readCalls {α : Type} (db : DB α) : Nat → DB α
  | 0 => db
  | k + 1 => (DB.readCalls db k).readReplicaNumberRoundRobin.2

/-- Spec-side description of the failover walk order: starting replica
first, then successive indices mod n, one full cycle. -/
def walkOrder (replicaIndex n : Nat) : List Nat :=
  (List.range n).map (fun j => (replicaIndex + j) % n)

/-- Spec-side description of the walk outcome: the result of the first
replica in the list whose attempt succeeds, noReplicaAvailableError when
none does. -/
def firstOk {ρ : Type} (attempt : Nat → Except String ρ) : List Nat → Except String ρ
  | [] => Except.error noReplicaAvailableError
  | i :: rest =>
    match attempt i with
    | Except.ok r => Except.ok r
    | Except.error _ => firstOk attempt rest

/-! General lemmas about the wraparound counter and iterated read calls. -/

theorem int64wrap_step (x : Int) : int64wrap (int64wrap x + 1) = int64wrap (x + 1) := by
  unfold int64wrap
  omega

theorem int64wrap_id {x : Int} (h0 : 0 ≤ x) (h1 : x < 2 ^ 63) : int64wrap x = x := by
  unfold int64wrap
  omega

theorem roundRobin_fst {α : Type} (db : DB α) :
    db.readReplicaNumberRoundRobin.1 =
      (int64wrap (db.count + 1)).tmod (db.readreplicas.length : Int) := rfl

theorem readCalls_readreplicas {α : Type} (db : DB α) (k : Nat) :
    (db.readCalls k).readreplicas = db.readreplicas := by
  induction k with
  | zero => rfl
  | succ k ih => simp [DB.readCalls, DB.readReplicaNumberRoundRobin, ih]

theorem readCalls_count {α : Type} (db : DB α) (h : db.count = 0) (k : Nat) :
    (db.readCalls k).count = int64wrap k := by
  induction k with
  | zero =>
    show db.count = int64wrap 0
    rw [h]
    rfl
  | succ k ih =>
    show int64wrap ((db.readCalls k).count + 1) = int64wrap ((k : Int) + 1)
    rw [ih, int64wrap_step]

/-- Index selected by the read call number k + 1 on a fresh router, while
the counter is still below the int64 overflow threshold. -/
theorem selection_eq {α : Type} (db : DB α) (h0 : db.count = 0) (k : Nat)
    (hk : k + 1 < 2 ^ 63) :
    (db.readCalls k).readReplicaNumberRoundRobin.1 =
      (((k + 1) % db.readreplicas.length : Nat) : Int) := by
  show (int64wrap ((db.readCalls k).count + 1)).tmod ((db.readCalls k).readreplicas.length : Int) =
    (((k + 1) % db.readreplicas.length : Nat) : Int)
  rw [readCalls_count db h0 k, readCalls_readreplicas db k, int64wrap_step,
    int64wrap_id (by positivity) (by exact_mod_cast hk)]
  rw [show ((k : Int) + 1) = (((k + 1 : Nat) : Int)) by push_cast; ring]
  rw [Int.tmod_eq_emod (by positivity) (by positivity)]
  omega

/-- Claim C2 (corrected): on a fresh router the call number k + 1 selects
replica index (k + 1) mod N, as long as k + 1 is below 2 ^ 63, the point
at which the Go int counter overflows; the original claim without that
bound is refuted by roundRobin_kth_call_selection_cex. -/
theorem roundRobin_kth_call_selection {α : Type} (db : DB α) (k : Nat)
    (h0 : db.count = 0) (hn : 1 ≤ db.readreplicas.length) (hk : k + 1 < 2 ^ 63) :
    (db.readCalls k).readReplicaNumberRoundRobin.1 =
      (((k + 1) % db.readreplicas.length : Nat) : Int) :=
  selection_eq db h0 k hk

/-- Witness for roundRobin_kth_call_selection: with 3 replicas and the
counter at 0, the first two read calls select replica indices 1 and 2. -/
theorem roundRobin_kth_call_selection_witness :
    (({ count := 0, master := 0, readreplicas := [10, 11, 12] } : DB Nat).readCalls
        0).readReplicaNumberRoundRobin.1 = 1 ∧
    (({ count := 0, master := 0, readreplicas := [10, 11, 12] } : DB Nat).readCalls
        1).readReplicaNumberRoundRobin.1 = 2 := by
  constructor
  · have h := roundRobin_kth_call_selection
      ({ count := 0, master := 0, readreplicas := [10, 11, 12] } : DB Nat) 0 rfl
      (by decide) (by decide)
    simpa using h
  · have h := roundRobin_kth_call_selection
      ({ count := 0, master := 0, readreplicas := [10, 11, 12] } : DB Nat) 1 rfl
      (by decide) (by decide)
    simpa using h

/-- Counterexample to claim C2 as stated: on a fresh router with 2
replicas, read call number 2 ^ 63 + 1 selects index -1 (the wrapped Go
int counter is negative and truncated modulus keeps its sign), not
(2 ^ 63 + 1) mod 2 = 1. -/
theorem roundRobin_kth_call_selection_cex :
    (({ count := 0, master := 0, readreplicas := [10, 11] } : DB Nat).readCalls
        (2 ^ 63)).readReplicaNumberRoundRobin.1 = -1 ∧
    (((2 ^ 63 + 1) % 2 : Nat) : Int) = 1 := by
  constructor
  · rw [roundRobin_fst, readCalls_count _ rfl, readCalls_readreplicas]
    decide
  · decide

/-- Claim C9 (corrected): before the counter overflows, every selected
replica index lies in [0, N); the original unbounded claim is refuted by
roundRobin_selection_in_bounds_cex, where the wrapped counter makes the
selector return a negative index. The modulus is taken with the fixed
replica count N, which the hypothesis keeps at least 1. -/
theorem roundRobin_selection_in_bounds {α : Type} (db : DB α) (k : Nat)
    (h0 : db.count = 0) (hn : 1 ≤ db.readreplicas.length) (hk : k + 1 < 2 ^ 63) :
    0 ≤ (db.readCalls k).readReplicaNumberRoundRobin.1 ∧
      (db.readCalls k).readReplicaNumberRoundRobin.1 < (db.readreplicas.length : Int) := by
  rw [selection_eq db h0 k hk]
  have hlt : (k + 1) % db.readreplicas.length < db.readreplicas.length :=
    Nat.mod_lt _ (by omega)
  constructor
  · positivity
  · exact_mod_cast hlt

/-- Witness for roundRobin_selection_in_bounds at 2 replicas and the first
read call. -/
theorem roundRobin_selection_in_bounds_witness :
    0 ≤ (({ count := 0, master := 0, readreplicas := [10, 11] } : DB Nat).readCalls
        0).readReplicaNumberRoundRobin.1 ∧
      (({ count := 0, master := 0, readreplicas := [10, 11] } : DB Nat).readCalls
        0).readReplicaNumberRoundRobin.1 <
        ((({ count := 0, master := 0, readreplicas := [10, 11] } : DB Nat).readreplicas.length :
          Int)) :=
  roundRobin_selection_in_bounds
    ({ count := 0, master := 0, readreplicas := [10, 11] } : DB Nat) 0 rfl
    (by decide) (by decide)

/-- Counterexample to claim C9 as stated: at read call number 2 ^ 63 + 1
on a fresh 2-replica router the selected index is negative, so
selector-driven indexing does go out of bounds once the Go int counter
overflows. -/
theorem roundRobin_selection_in_bounds_cex :
    (({ count := 0, master := 0, readreplicas := [10, 11] } : DB Nat).readCalls
        (2 ^ 63)).readReplicaNumberRoundRobin.1 < 0 := by
  rw [roundRobin_fst, readCalls_count _ rfl, readCalls_readreplicas]
  decide

/-! Characterisation of the Close fold. -/

theorem close_foldl {α : Type} (closeFn : α → Option String × α) (l : List α)
    (acc0 : Option String) (hs : List α) :
    l.foldl
        (fun acc h =>
          let (e, h') := closeFn h
          (e, acc.2 ++ [h']))
        (acc0, hs) =
      ((l.map (fun h => (closeFn h).1)).getLastD acc0,
        hs ++ l.map (fun h => (closeFn h).2)) := by
  induction l generalizing acc0 hs with
  | nil => simp
  | cons a t ih =>
    rw [List.foldl_cons]
    cases hca : closeFn a with
    | mk e h' =>
      simp only [hca, List.map_cons, List.getLastD_cons, ih]
      simp [List.append_assoc]

/-- Close returns the outcome of the last close performed (the last
replica when there is one, otherwise the master), closes the master and
then every replica, and leaves the counter alone. -/
theorem close_eq {α : Type} (db : DB α) (closeFn : α → Option String × α) :
    db.Close closeFn =
      ((db.readreplicas.map (fun h => (closeFn h).1)).getLastD (closeFn db.master).1,
        { db with
            master := (closeFn db.master).2,
            readreplicas := db.readreplicas.map (fun h => (closeFn h).2) }) := by
  unfold DB.Close
  cases hm : closeFn db.master with
  | mk e m' =>
    dsimp only
    rw [close_foldl]
    simp

/-- Claim C7: construction fails exactly on an empty replica sequence,
with the configuration error, and otherwise succeeds with the counter at
zero; the master handle is an arbitrary value of an arbitrary type and is
never inspected, so no validation besides the replica count occurs. -/
theorem new_validation {α : Type} (master : α) (readreplicas : List α) :
    (readreplicas = [] → New master readreplicas = Except.error noReadReplicaError) ∧
    (readreplicas ≠ [] →
      New master readreplicas =
        Except.ok { count := 0, master := master, readreplicas := readreplicas }) := by
  constructor
  · intro h
    subst h
    rfl
  · intro h
    unfold New
    rw [if_neg (by simpa using h)]

/-- Witness for new_validation: zero replicas fail, one replica succeeds. -/
theorem new_validation_witness :
    New (0 : Nat) ([] : List Nat) = Except.error noReadReplicaError ∧
    New (0 : Nat) [1] = Except.ok { count := 0, master := 0, readreplicas := [1] } :=
  ⟨(new_validation 0 []).1 rfl, (new_validation 0 [1]).2 (by decide)⟩

/-- Claim C8: QueryRowContext issues the query directly against the one
replica chosen by round robin and returns its row handle eagerly; the
result depends only on that replica (two behaviour assignments agreeing
on the selected replica give identical outcomes), so no failover attempt
on any other replica is made, whatever the chosen replica returns. -/
theorem queryRow_no_failover {α ρ : Type} (db : DB α) (f g : Nat → ρ) :
    (db.QueryRowContext f).1 = f (db.readReplicaNumberRoundRobin.1).toNat ∧
    (f (db.readReplicaNumberRoundRobin.1).toNat = g (db.readReplicaNumberRoundRobin.1).toNat →
      db.QueryRowContext f = db.QueryRowContext g) := by
  refine ⟨rfl, fun h => ?_⟩
  simp only [DB.QueryRowContext, DB.readReplicaNumberRoundRobin] at h ⊢
  rw [h]

/-- Witness for queryRow_no_failover: on a fresh 2-replica router the
selected replica is 1; a behaviour differing everywhere but at replica 1
gives the same outcome. -/
theorem queryRow_no_failover_witness :
    (({ count := 0, master := 0, readreplicas := [10, 11] } : DB Nat).QueryRowContext
        (fun i => 100 + i)).1 =
      (fun i => 100 + i)
        ((({ count := 0, master := 0, readreplicas := [10, 11] } :
          DB Nat).readReplicaNumberRoundRobin.1).toNat) ∧
    ({ count := 0, master := 0, readreplicas := [10, 11] } : DB Nat).QueryRowContext
        (fun i => 100 + i) =
      ({ count := 0, master := 0, readreplicas := [10, 11] } : DB Nat).QueryRowContext
        (fun i => if i = 1 then 101 else 999) :=
  ⟨(queryRow_no_failover _ (fun i => 100 + i) (fun i => if i = 1 then 101 else 999)).1,
    (queryRow_no_failover _ (fun i => 100 + i) (fun i => if i = 1 then 101 else 999)).2
      (by decide)⟩

/-- Claim C6: PrepareContext lower-cases the whitespace-trimmed query text
and tests the select keyword as a prefix; a match routes the prepare
through the failover-enabled replica path (prepare), anything else is
delegated to the master handle alone, with the replica behaviour never
consulted and the router state untouched. -/
theorem prepareContext_routing {α σ : Type} (db : DB α) (masterPrepare : Except String σ)
    (replicaPrepare : Nat → Except String σ) (query : List Char) :
    (beginsWith (toLower (trimSpace query)) "select".data = true →
      db.PrepareContext masterPrepare replicaPrepare query = db.prepare replicaPrepare) ∧
    (beginsWith (toLower (trimSpace query)) "select".data = false →
      db.PrepareContext masterPrepare replicaPrepare query = (masterPrepare, db)) := by
  constructor <;> intro h <;> simp [DB.PrepareContext, h]

/-- Witness for prepareContext_routing: an upper-case select query with
surrounding whitespace routes to the replicas, an update routes to the
master. -/
theorem prepareContext_routing_witness :
    ({ count := 0, master := 0, readreplicas := [10, 11] } : DB Nat).PrepareContext
        (Except.ok 1) (fun _ => Except.ok 2) "  SELECT c FROM t ".data =
      ({ count := 0, master := 0, readreplicas := [10, 11] } : DB Nat).prepare
        (fun _ => Except.ok 2) ∧
    ({ count := 0, master := 0, readreplicas := [10, 11] } : DB Nat).PrepareContext
        (Except.ok 1) (fun _ => Except.ok 2) "UPDATE t SET c = 1".data =
      (Except.ok 1, ({ count := 0, master := 0, readreplicas := [10, 11] } : DB Nat)) :=
  ⟨(prepareContext_routing _ _ _ _).1 (by decide),
    (prepareContext_routing _ _ _ _).2 (by decide)⟩

/-- Claim C10: the three read operations all advance the one shared
counter by exactly one selector step per call, whatever the replica
behaviours do (in particular the failover attempts inside one call never
advance it); the non-select prepare and every non-read operation leave
the counter unchanged. -/
theorem read_counter_frame {α ρ σ τ π : Type} (db : DB α)
    (replicaQuery : Nat → Except String ρ) (replicaQueryRow : Nat → π)
    (replicaPrepare : Nat → Except String σ) (masterPrepare : Except String σ)
    (query : List Char) (masterExec : Except String ρ) (masterBeginTx : Except String τ)
    (masterPing : Option String) (replicaPing : Nat → Option String) (order : List Nat)
    (closeFn : α → Option String × α) (setFn : α → α) :
    (db.QueryContext replicaQuery).2.count = int64wrap (db.count + 1) ∧
    (db.QueryRowContext replicaQueryRow).2.count = int64wrap (db.count + 1) ∧
    (db.prepare replicaPrepare).2.count = int64wrap (db.count + 1) ∧
    (beginsWith (toLower (trimSpace query)) "select".data = true →
      (db.PrepareContext masterPrepare replicaPrepare query).2.count =
        int64wrap (db.count + 1)) ∧
    (beginsWith (toLower (trimSpace query)) "select".data = false →
      (db.PrepareContext masterPrepare replicaPrepare query).2 = db) ∧
    (db.ExecContext masterExec).2 = db ∧
    (db.BeginTx masterBeginTx).2 = db ∧
    (db.PingContext masterPing replicaPing order).2 = db ∧
    (db.Close closeFn).2.count = db.count ∧
    (db.SetConnMaxLifetime setFn).count = db.count ∧
    (db.SetMaxIdleConns setFn).count = db.count := by
  refine ⟨rfl, rfl, rfl, fun h => ?_, fun h => ?_, rfl, rfl, rfl, ?_, rfl, rfl⟩
  · simp [DB.PrepareContext, h, DB.prepare, DB.readReplicaNumberRoundRobin]
  · simp [DB.PrepareContext, h]
  · rw [close_eq]

/-- Witness for read_counter_frame: a failing query still advances the
counter exactly once, a select prepare advances it once, a delete
prepare leaves the state untouched. -/
theorem read_counter_frame_witness :
    (({ count := 0, master := 0, readreplicas := [10, 11] } : DB Nat).QueryContext
        (fun _ => (Except.error "down" : Except String Nat))).2.count =
      int64wrap (({ count := 0, master := 0, readreplicas := [10, 11] } : DB Nat).count + 1) ∧
    (({ count := 0, master := 0, readreplicas := [10, 11] } : DB Nat).PrepareContext
        (Except.ok 1) (fun _ => Except.ok 2) "select c".data).2.count =
      int64wrap (({ count := 0, master := 0, readreplicas := [10, 11] } : DB Nat).count + 1) ∧
    (({ count := 0, master := 0, readreplicas := [10, 11] } : DB Nat).PrepareContext
        (Except.ok 1) (fun _ => Except.ok 2) "delete from t".data).2 =
      ({ count := 0, master := 0, readreplicas := [10, 11] } : DB Nat) := by
  refine ⟨?_, ?_, ?_⟩
  · exact (read_counter_frame _ (fun _ => (Except.error "down" : Except String Nat))
      (fun _ => 0) (fun _ => (Except.ok 0 : Except String Nat)) (Except.ok 0) []
      (Except.ok 0) (Except.ok (0 : Nat)) none (fun _ => none) [] (fun h => (none, h))
      id).1
  · exact (read_counter_frame _ (fun _ => (Except.error "down" : Except String Nat))
      (fun _ => 0) (fun _ => (Except.ok 2 : Except String Nat)) (Except.ok 1)
      "select c".data (Except.ok 0) (Except.ok (0 : Nat)) none (fun _ => none) []
      (fun h => (none, h)) id).2.2.2.1 (by decide)
  · exact (read_counter_frame _ (fun _ => (Except.error "down" : Except String Nat))
      (fun _ => 0) (fun _ => (Except.ok 2 : Except String Nat)) (Except.ok 1)
      "delete from t".data (Except.ok 0) (Except.ok (0 : Nat)) none (fun _ => none) []
      (fun h => (none, h)) id).2.2.2.2.1 (by decide)

/-! Characterisation of the failover walk. -/

theorem mod_window_eq {n r j₁ j₂ : Nat} (hr : r < n) (h₁ : j₁ < n) (h₂ : j₂ < n)
    (h : (r + j₁) % n = (r + j₂) % n) : j₁ = j₂ := by
  have e₁ : (r + j₁) % n = if r + j₁ < n then r + j₁ else r + j₁ - n := by
    split
    · exact Nat.mod_eq_of_lt (by omega)
    · rw [Nat.mod_eq_sub_mod (by omega)]
      exact Nat.mod_eq_of_lt (by omega)
  have e₂ : (r + j₂) % n = if r + j₂ < n then r + j₂ else r + j₂ - n := by
    split
    · exact Nat.mod_eq_of_lt (by omega)
    · rw [Nat.mod_eq_sub_mod (by omega)]
      exact Nat.mod_eq_of_lt (by omega)
  rw [e₁, e₂] at h
  split at h <;> split at h <;> omega

theorem mod_neq_start {n r j : Nat} (hr : r < n) (hj1 : 1 ≤ j) (hjn : j < n) :
    (r + j) % n ≠ r := by
  intro h
  have h0 : (r + 0) % n = r := by
    rw [Nat.add_zero]
    exact Nat.mod_eq_of_lt hr
  have := @mod_window_eq n r j 0 hr hjn (by omega) (by rw [h, h0])
  omega

theorem replicaWalkLoop_succ {ρ : Type} (attempt : Nat → Except String ρ)
    (n r i fuel : Nat) :
    replicaWalkLoop attempt n r i (fuel + 1) =
      if i % n = r then Except.error noReplicaAvailableError
      else
        match attempt (i % n) with
        | Except.ok v => Except.ok v
        | Except.error _ => replicaWalkLoop attempt n r (i + 1) fuel := rfl

theorem replicaWalkLoop_eq {ρ : Type} (attempt : Nat → Except String ρ) {n r : Nat}
    (hr : r < n) :
    ∀ d j : Nat, j + d = n → 1 ≤ j →
      replicaWalkLoop attempt n r (r + j) (d + 1) =
        firstOk attempt ((List.range d).map (fun t => (r + j + t) % n)) := by
  intro d
  induction d with
  | zero =>
    intro j hjd hj1
    have hmod : (r + j) % n = r := by
      have hj : j = n := by omega
      rw [hj, Nat.add_mod_right]
      exact Nat.mod_eq_of_lt hr
    rw [replicaWalkLoop_succ, if_pos hmod]
    rfl
  | succ d ih =>
    intro j hjd hj1
    have hjn : j < n := by omega
    have hne := mod_neq_start hr hj1 hjn
    rw [replicaWalkLoop_succ, if_neg hne]
    rw [List.range_succ_eq_map, List.map_cons, List.map_map]
    rw [show r + j + 0 = r + j by omega]
    cases hA : attempt ((r + j) % n) with
    | ok v => simp [firstOk, hA]
    | error e =>
      have hIH := ih (j + 1) (by omega) (by omega)
      rw [show r + (j + 1) = r + j + 1 by omega] at hIH
      simp only [firstOk, hA]
      rw [hIH]
      refine congrArg (firstOk attempt) (List.map_congr_left ?_)
      intro t ht
      simp only [Function.comp_apply]
      congr 1
      omega

/-- Walk starting at r with one full wrap: the inline first attempt of
QueryContext and prepare followed by the loop equals the first success
over the walk order. -/
theorem walk_match_eq_firstOk {ρ : Type} (attempt : Nat → Except String ρ) {n r : Nat}
    (hr : r < n) :
    (match attempt r with
      | Except.ok v => Except.ok v
      | Except.error _ => replicaWalkLoop attempt n r (r + 1) n) =
      firstOk attempt (walkOrder r n) := by
  obtain ⟨m, rfl⟩ : ∃ m, n = m + 1 := ⟨n - 1, by omega⟩
  unfold walkOrder
  rw [List.range_succ_eq_map, List.map_cons, List.map_map]
  rw [show r + 0 = r by omega, Nat.mod_eq_of_lt hr]
  cases hA : attempt r with
  | ok v => simp [firstOk, hA]
  | error e =>
    have hIH := replicaWalkLoop_eq attempt hr m 1 (by omega) (by omega)
    simp only [firstOk, hA]
    rw [hIH]
    refine congrArg (firstOk attempt) (List.map_congr_left ?_)
    intro t ht
    simp only [Function.comp_apply]
    congr 1
    omega

theorem selectIndex_lt {α : Type} (db : DB α) (hn : 1 ≤ db.readreplicas.length) :
    (db.readReplicaNumberRoundRobin.1).toNat < db.readreplicas.length := by
  rw [roundRobin_fst]
  have h := Int.tmod_lt_of_pos (int64wrap (db.count + 1))
    (b := (db.readreplicas.length : Int)) (by exact_mod_cast hn)
  omega

theorem firstOk_all_error {ρ : Type} (attempt : Nat → Except String ρ) (l : List Nat)
    (h : ∀ i ∈ l, ∃ e, attempt i = Except.error e) :
    firstOk attempt l = Except.error noReplicaAvailableError := by
  induction l with
  | nil => rfl
  | cons a t ih =>
    obtain ⟨e, he⟩ := h a (by simp)
    simp only [firstOk, he]
    exact ih (fun i hi => h i (by simp [hi]))

theorem walkOrder_length (r n : Nat) : (walkOrder r n).length = n := by
  simp [walkOrder]

theorem walkOrder_nodup {n r : Nat} (hr : r < n) : (walkOrder r n).Nodup := by
  unfold walkOrder
  refine List.Nodup.map_on ?_ (List.nodup_range n)
  intro x hx y hy hxy
  exact mod_window_eq hr (List.mem_range.mp hx) (List.mem_range.mp hy) hxy

theorem walkOrder_mem {n r i : Nat} (hn : 1 ≤ n) (hi : i ∈ walkOrder r n) : i < n := by
  unfold walkOrder at hi
  obtain ⟨j, hj, rfl⟩ := List.mem_map.mp hi
  exact Nat.mod_lt _ (by omega)

/-- Claim C1: both failover-enabled read operations return the result of
the first replica whose attempt succeeds along the walk order, which
starts at the selected index and visits (index + j) mod N for
j = 0, 1, ..., N - 1: a sequence of length N without duplicates, so each
replica is attempted at most once and at most N attempts are made. When
every replica in the walk fails, both operations return the
NoReplicaAvailable error. -/
theorem failover_walk_spec {α ρ σ : Type} (db : DB α)
    (replicaQuery : Nat → Except String ρ) (replicaPrepare : Nat → Except String σ)
    (hn : 1 ≤ db.readreplicas.length) :
    (db.QueryContext replicaQuery).1 =
      firstOk replicaQuery
        (walkOrder (db.readReplicaNumberRoundRobin.1).toNat db.readreplicas.length) ∧
    (db.prepare replicaPrepare).1 =
      firstOk replicaPrepare
        (walkOrder (db.readReplicaNumberRoundRobin.1).toNat db.readreplicas.length) ∧
    (walkOrder (db.readReplicaNumberRoundRobin.1).toNat db.readreplicas.length).length =
      db.readreplicas.length ∧
    (walkOrder (db.readReplicaNumberRoundRobin.1).toNat db.readreplicas.length).Nodup ∧
    ((∀ i, i < db.readreplicas.length → ∃ e, replicaQuery i = Except.error e) →
      (db.QueryContext replicaQuery).1 = Except.error noReplicaAvailableError) ∧
    ((∀ i, i < db.readreplicas.length → ∃ e, replicaPrepare i = Except.error e) →
      (db.prepare replicaPrepare).1 = Except.error noReplicaAvailableError) := by
  have hr := selectIndex_lt db hn
  have hq : (db.QueryContext replicaQuery).1 =
      (match replicaQuery (db.readReplicaNumberRoundRobin.1).toNat with
        | Except.ok v => Except.ok v
        | Except.error _ =>
            replicaWalkLoop replicaQuery db.readreplicas.length
              (db.readReplicaNumberRoundRobin.1).toNat
              ((db.readReplicaNumberRoundRobin.1).toNat + 1) db.readreplicas.length) := rfl
  have hp : (db.prepare replicaPrepare).1 =
      (match replicaPrepare (db.readReplicaNumberRoundRobin.1).toNat with
        | Except.ok v => Except.ok v
        | Except.error _ =>
            replicaWalkLoop replicaPrepare db.readreplicas.length
              (db.readReplicaNumberRoundRobin.1).toNat
              ((db.readReplicaNumberRoundRobin.1).toNat + 1) db.readreplicas.length) := rfl
  have hq2 : (db.QueryContext replicaQuery).1 =
      firstOk replicaQuery
        (walkOrder (db.readReplicaNumberRoundRobin.1).toNat db.readreplicas.length) := by
    rw [hq, walk_match_eq_firstOk replicaQuery hr]
  have hp2 : (db.prepare replicaPrepare).1 =
      firstOk replicaPrepare
        (walkOrder (db.readReplicaNumberRoundRobin.1).toNat db.readreplicas.length) := by
    rw [hp, walk_match_eq_firstOk replicaPrepare hr]
  refine ⟨hq2, hp2, walkOrder_length _ _, walkOrder_nodup hr, fun hfail => ?_, fun hfail => ?_⟩
  · rw [hq2]
    exact firstOk_all_error _ _ (fun i hi => hfail i (walkOrder_mem hn hi))
  · rw [hp2]
    exact firstOk_all_error _ _ (fun i hi => hfail i (walkOrder_mem hn hi))

/-- Witness for failover_walk_spec at a fresh 3-replica router (selected
index 1), with replica 2 the only healthy one for queries and every
replica down for prepares; the concrete evaluations show the walk
succeeding on replica 2 and the exhausted walk returning the
NoReplicaAvailable error. -/
theorem failover_walk_spec_witness :
    (({ count := 0, master := 0, readreplicas := [10, 11, 12] } : DB Nat).QueryContext
        (fun i => if i = 2 then Except.ok 99 else Except.error "down")).1 =
      firstOk (fun i => if i = 2 then Except.ok 99 else Except.error "down")
        (walkOrder
          ((({ count := 0, master := 0, readreplicas := [10, 11, 12] } :
            DB Nat).readReplicaNumberRoundRobin.1).toNat) 3) ∧
    (({ count := 0, master := 0, readreplicas := [10, 11, 12] } : DB Nat).QueryContext
        (fun i => if i = 2 then Except.ok 99 else Except.error "down")).1 =
      Except.ok 99 ∧
    (({ count := 0, master := 0, readreplicas := [10, 11, 12] } : DB Nat).prepare
        (fun _ => (Except.error "closed" : Except String Nat))).1 =
      Except.error noReplicaAvailableError := by
  refine ⟨?_, rfl, ?_⟩
  · exact (failover_walk_spec
      ({ count := 0, master := 0, readreplicas := [10, 11, 12] } : DB Nat)
      (fun i => if i = 2 then Except.ok 99 else Except.error "down")
      (fun _ => (Except.error "closed" : Except String Nat)) (by decide)).1
  · exact (failover_walk_spec
      ({ count := 0, master := 0, readreplicas := [10, 11, 12] } : DB Nat)
      (fun i => if i = 2 then Except.ok 99 else Except.error "down")
      (fun _ => (Except.error "closed" : Except String Nat)) (by decide)).2.2.2.2.2
      (fun i _ => ⟨"closed", rfl⟩)

/-! Health-check aggregation. -/

theorem filterMap_ping_eq (replicaPing : Nat → Option String) (order : List Nat) :
    order.filterMap (fun i => ping replicaPing i) =
      (order.filter (fun i => (replicaPing i).isSome)).map
        (fun i => replicaPingFailError (i + 1) ((replicaPing i).iget)) := by
  induction order with
  | nil => rfl
  | cons a t ih =>
    cases h : replicaPing a with
    | none =>
      have hping : ping replicaPing a = none := by simp [ping, h]
      have hsome : (replicaPing a).isSome = false := by simp [h]
      simp [List.filterMap_cons, List.filter_cons, hping, hsome, ih]
    | some e =>
      have hping : ping replicaPing a = some (replicaPingFailError (a + 1) e) := by
        simp [ping, h]
      have hsome : (replicaPing a).isSome = true := by simp [h]
      simp [List.filterMap_cons, List.filter_cons, hping, hsome, ih, h]

/-- Claim C3: whenever the master ping or some replica ping fails, the
health check returns exactly one error, the newline join of the master
failure line (first, when present) and one formatted line per failed
replica in the order their completions were collected; healthy targets
contribute no line, so the number of lines is the number of failed
targets. -/
theorem ping_failure_aggregation {α : Type} (db : DB α) (masterPing : Option String)
    (replicaPing : Nat → Option String) (order : List Nat)
    (hperm : order.Perm (List.range db.readreplicas.length))
    (hfail : masterPing.isSome = true ∨
      ∃ i, i < db.readreplicas.length ∧ (replicaPing i).isSome = true) :
    (db.PingContext masterPing replicaPing order).1 =
      some (String.intercalate "\n"
        (masterLines masterPing ++
          (order.filter (fun i => (replicaPing i).isSome)).map
            (fun i => replicaPingFailError (i + 1) ((replicaPing i).iget)))) ∧
    (masterLines masterPing ++
      (order.filter (fun i => (replicaPing i).isSome)).map
        (fun i => replicaPingFailError (i + 1) ((replicaPing i).iget))).length =
      (if masterPing.isSome then 1 else 0) +
        ((List.range db.readreplicas.length).filter
          (fun i => (replicaPing i).isSome)).length := by
  have hlen : (order.filter (fun i => (replicaPing i).isSome)).length =
      ((List.range db.readreplicas.length).filter
        (fun i => (replicaPing i).isSome)).length :=
    (hperm.filter _).length_eq
  have hpos :
      (masterLines masterPing ++
        (order.filter (fun i => (replicaPing i).isSome)).map
          (fun i => replicaPingFailError (i + 1) ((replicaPing i).iget))).length > 0 := by
    rcases hfail with hm | ⟨i, hi, hsome⟩
    · cases masterPing with
      | none => simp at hm
      | some e => simp [masterLines]
    · have himem : i ∈ order := hperm.mem_iff.mpr (List.mem_range.mpr hi)
      have hifil : i ∈ order.filter (fun i => (replicaPing i).isSome) :=
        List.mem_filter.mpr ⟨himem, hsome⟩
      have h1 : 0 < (order.filter (fun i => (replicaPing i).isSome)).length :=
        List.length_pos.mpr (List.ne_nil_of_mem hifil)
      simp only [List.length_append, List.length_map]
      omega
  constructor
  · unfold DB.PingContext
    dsimp only
    rw [filterMap_ping_eq]
    split
    · rfl
    · exact absurd hpos (by assumption)
  · rw [List.length_append, List.length_map, hlen]
    cases masterPing <;> simp [masterLines]

/-- Witness for ping_failure_aggregation, matching the repository test:
master down and replica ordinal 1 down on a 2-replica router, with the
replicas' completions collected in the order replica 2 then replica 1,
produce the two-line joined failure. -/
theorem ping_failure_aggregation_witness :
    (({ count := 0, master := 0, readreplicas := [10, 11] } : DB Nat).PingContext
        (some "sql: database is closed")
        (fun i => if i = 0 then some "sql: database is closed" else none) [1, 0]).1 =
      some ("master's db ping fail: sql: database is closed" ++ "\n" ++
        "replica db 1 ping fail: sql: database is closed") := by
  have h := ping_failure_aggregation
    ({ count := 0, master := 0, readreplicas := [10, 11] } : DB Nat)
    (some "sql: database is closed")
    (fun i => if i = 0 then some "sql: database is closed" else none) [1, 0]
    (by decide) (Or.inl rfl)
  rw [h.1]
  decide

/-- Claim C4: with a healthy master and every replica ping succeeding, the
health check returns nil, whatever order the replica completions are
collected in. -/
theorem ping_all_healthy {α : Type} (db : DB α) (replicaPing : Nat → Option String)
    (order : List Nat) (hperm : order.Perm (List.range db.readreplicas.length))
    (hhealthy : ∀ i, i < db.readreplicas.length → replicaPing i = none) :
    (db.PingContext none replicaPing order).1 = none := by
  have hnil : order.filterMap (fun i => ping replicaPing i) = [] := by
    rw [List.filterMap_eq_nil_iff]
    intro i hi
    have hlt : i < db.readreplicas.length := List.mem_range.mp (hperm.mem_iff.mp hi)
    simp [ping, hhealthy i hlt]
  unfold DB.PingContext
  dsimp only
  rw [hnil]
  rfl

/-- Witness for ping_all_healthy on a 2-replica router with completions
collected out of ordinal order. -/
theorem ping_all_healthy_witness :
    (({ count := 0, master := 0, readreplicas := [10, 11] } : DB Nat).PingContext
        none (fun _ => none) [1, 0]).1 = none :=
  ping_all_healthy ({ count := 0, master := 0, readreplicas := [10, 11] } : DB Nat)
    (fun _ => none) [1, 0] (by decide) (fun _ _ => rfl)

/-! Close semantics. -/

/-- Claim C5 (corrected): Close attempts the master close and then every
replica close in order, continuing past failures (every handle records
exactly one close call); when all closes succeed it returns nil; its
return value is the outcome of the LAST close performed, so a failure
is reported only when that last close fails; failures of the master or
of earlier replicas are dropped even when a later close succeeds, which
refutes the original "returns the last failure encountered" wording
(see close_last_failure_cex). -/
theorem close_result_spec (db : DB Handle) :
    (db.Close Handle.close).1 =
      (db.readreplicas.map Handle.closeErr).getLastD db.master.closeErr ∧
    (db.Close Handle.close).2.master.closeCalls = db.master.closeCalls + 1 ∧
    (db.Close Handle.close).2.readreplicas =
      db.readreplicas.map (fun h => { h with closeCalls := h.closeCalls + 1 }) ∧
    ((db.master.closeErr = none ∧ ∀ h ∈ db.readreplicas, h.closeErr = none) →
      (db.Close Handle.close).1 = none) := by
  have hc := close_eq db Handle.close
  refine ⟨?_, ?_, ?_, ?_⟩
  · rw [hc]
    exact rfl
  · rw [hc]
    exact rfl
  · rw [hc]
    exact rfl
  · rintro ⟨hm, hrep⟩
    rw [hc]
    have hmem := List.getLastD_mem_cons
      (db.readreplicas.map (fun h => (Handle.close h).1)) (Handle.close db.master).1
    rcases List.mem_cons.mp hmem with h1 | h2
    · rw [h1]
      exact hm
    · obtain ⟨x, hx, hfx⟩ := List.mem_map.mp h2
      rw [← hfx]
      exact hrep x hx

/-- Witness for close_result_spec: two healthy replicas and a healthy
master give a nil overall close, each handle closed exactly once. -/
theorem close_result_spec_witness :
    (({ count := 0, master := { closeErr := none, closeCalls := 0 },
        readreplicas := [{ closeErr := none, closeCalls := 0 },
          { closeErr := none, closeCalls := 0 }] } : DB Handle).Close Handle.close).1 =
      none ∧
    (({ count := 0, master := { closeErr := none, closeCalls := 0 },
        readreplicas := [{ closeErr := none, closeCalls := 0 },
          { closeErr := none, closeCalls := 0 }] } : DB Handle).Close
        Handle.close).2.master.closeCalls = 1 :=
  ⟨(close_result_spec _).2.2.2 ⟨rfl, by decide⟩, (close_result_spec _).2.1⟩

/-- Counterexample to claim C5 as stated: the master close fails with
boom while the single replica closes cleanly; a failure was encountered,
yet Close returns nil instead of that last (and only) failure, because
the error variable is overwritten by the successful replica close. -/
theorem close_last_failure_cex :
    (({ count := 0,
        master := { closeErr := some "boom", closeCalls := 0 },
        readreplicas := [{ closeErr := none, closeCalls := 0 }] } : DB Handle).Close
        Handle.close).1 = none ∧
    (({ count := 0,
        master := { closeErr := some "boom", closeCalls := 0 },
        readreplicas := [{ closeErr := none, closeCalls := 0 }] } : DB Handle).Close
        Handle.close).1 ≠ some "boom" :=
  ⟨rfl, by decide⟩

end Mydb
